import Mathlib

/-!
Verification of the elevator group-control simulator core.

This file shallowly embeds the data model and the operations of the
simulator (constants.py, util.py, qlearningAgents.py, learningAgents.py,
environment.py, events.py, simulator.py) and proves or refutes the
specified properties.

Modelling conventions:
* Python floats are modelled as `ℚ` wherever the code only adds,
  multiplies, compares and divides (geometry, times, queue keys), and as
  `ℝ` where the code calls `math.exp` (the Q-learner's formulas).
* `math.cos` is modelled by an arbitrary function parameter `cosFn`:
  every theorem about code that calls it is proved for all `cosFn`.
* Fallible code (Python exceptions) returns `Except PyErr` values, or an
  `Option`al error component when mutations before the raise matter.
* Python calls with the wrong number of positional arguments raise
  `TypeError` before the callee body runs; the helper `checkArity`
  models exactly that check.
-/

namespace ElevatorSim

/-! ### constants.py -/

def FLOOR_HEIGHT : ℚ := 366 / 100
def MAX_SPEED : ℚ := 254 / 100
def ACCEL_CONST : ℚ := 8871057 / 10000000
def FULL_SPEED_DECISION_DIST : ℚ := 26836781597 / 10000000000
def ACCEL_DECISION_DIST : ℚ := 183 / 100
def ACCEL_DECEL_0 : ℚ := 351757258 / 100000000
def ACCEL_DECEL_1 : ℚ := -64762952 / 10000000
def TIME_STEP : ℚ := 1 / 100
def GENERAL_EPS : ℚ := 1 / 10000

/-! ### util.boltzmann and QLearningAgent.prob_stop (util.py, qlearningAgents.py)

`boltzmann((v0, v1), T)` returns `(x/(x+y), y/(x+y))` for `x = exp(v0/T)`,
`y = exp(v1/T)`.  Real arithmetic never overflows, so the two
`OverflowError` guards of the source are dead in this model.
`prob_stop` destructures the result as `_, prob_stop`, i.e. it is the
second component, where `values = (Q_STOP, Q_CONTINUE)`. -/

noncomputable def boltzmann (v0 v1 temperature : ℝ) : ℝ × ℝ :=
  let x := Real.exp (v0 / temperature)
  let y := Real.exp (v1 / temperature)
  (x / (x + y), y / (x + y))

noncomputable def prob_stop (qStop qContinue temperature : ℝ) : ℝ :=
  (boltzmann qStop qContinue temperature).2

/-- Helper: the second softmax component over raw Q-values equals the first
softmax component over negated Q-values. -/
lemma prob_stop_eq_neg_form (qs qc T : ℝ) :
    prob_stop qs qc T =
      Real.exp (-qs / T) / (Real.exp (-qs / T) + Real.exp (-qc / T)) := by
  unfold prob_stop boltzmann
  simp only
  rw [div_eq_div_iff (by positivity) (by positivity)]
  rw [mul_add, mul_add, ← Real.exp_add, ← Real.exp_add, ← Real.exp_add, ← Real.exp_add]
  ring_nf

/-- C1.  During training the probability of selecting STOP equals
`exp(−Q_STOP/T) / (exp(−Q_STOP/T) + exp(−Q_CONTINUE/T))`; in particular at
`Q_STOP = 1`, `Q_CONTINUE = 0`, `T = 2` it equals
`exp(−1/2)/(exp(−1/2) + exp 0)`.  (The code computes the second component
of the softmax of the raw Q-values, which is algebraically the same
quantity.) -/
theorem prob_stop_eq_boltzmann_of_neg_qvalues :
    (∀ qs qc T : ℝ, prob_stop qs qc T =
      Real.exp (-qs / T) / (Real.exp (-qs / T) + Real.exp (-qc / T))) ∧
    prob_stop 1 0 2 = Real.exp (-(1 / 2)) / (Real.exp (-(1 / 2)) + Real.exp 0) := by
  refine ⟨prob_stop_eq_neg_form, ?_⟩
  have h2 := prob_stop_eq_neg_form 1 0 2
  norm_num at h2 ⊢
  rw [h2]

/-! ### ElevatorState class constants (environment.py)

The source encodes directions, statuses and actions as Python ints on the
`ElevatorState` class; we keep the same integer codes. -/

namespace ElevatorState

def UP : ℤ := 1
def DOWN : ℤ := -1
def STOPPED : ℤ := 0

def IDLE : ℤ := 2
def ACCELERATING : ℤ := 3
def FULL_SPEED_DECELERATING : ℤ := 4
def ACCEL_DECELERATING : ℤ := 5
def FULL_SPEED : ℤ := 6
def BOARDING : ℤ := 7
def DONE_BOARDING : ℤ := 13

def STOP : ℤ := 8
def CONTINUE : ℤ := 9
def NO_ACTION : ℤ := 10
def MOVE_UP : ℤ := 11
def MOVE_DOWN : ℤ := 12

end ElevatorState

/-! ### Semi-Markov Q-learner (qlearningAgents.py, learningAgents.py)

The learning state is the 7-tuple documented in
`Environment.get_learning_state`; the Q-table is a `util.Counter` keyed by
`(state, action)` pairs defaulting to `0`, modelled as a total function. -/

abbrev LearningState := ℕ × ℕ × ℕ × ℕ × ℕ × ℕ × ℤ

instance : DecidableEq LearningState := instDecidableEqProd

instance : DecidableEq (LearningState × ℤ) := instDecidableEqProd

structure ElevatorQAgent where
  qvalues : LearningState × ℤ → ℝ
  beta : ℝ
  decision_time : ℝ
  cost_accumulator : ℝ
  episodes_so_far : ℕ
  last_state : LearningState
  last_action : ℤ

/-- `ReinforcementAgent.alpha`: `0.01 * 0.99975 ** episodes_so_far`. -/
noncomputable def ElevatorQAgent.alpha (ag : ElevatorQAgent) : ℝ :=
  (1 / 100) * (99975 / 100000) ^ ag.episodes_so_far

/-- `QLearningAgent.get_qvalue`: Counter lookup, defaulting to 0. -/
noncomputable def ElevatorQAgent.get_qvalue (ag : ElevatorQAgent)
    (state : LearningState) (action : ℤ) : ℝ :=
  ag.qvalues (state, action)

/-- `ElevatorQAgent.update(now, next_state, reward)`: the SMDP Bellman
update.  It returns the new Q-table; the source mutates
`self.qvalues[(self.last_state, self.last_action)]` only. -/
noncomputable def ElevatorQAgent.update (ag : ElevatorQAgent) (now : ℝ)
    (next_state : LearningState) (reward : ℝ) : LearningState × ℤ → ℝ :=
  let min_next_q := min (ag.get_qvalue next_state ElevatorState.STOP)
                        (ag.get_qvalue next_state ElevatorState.CONTINUE)
  let sample := reward + Real.exp (-ag.beta * (now - ag.decision_time)) * min_next_q
  fun k =>
    if k = (ag.last_state, ag.last_action) then
      (1 - ag.alpha) * ag.get_qvalue ag.last_state ag.last_action + ag.alpha * sample
    else ag.qvalues k

/-- C2.  The Bellman update writes
`(1−α)·Q(s_prev,a_prev) + α·(R + e^{−β(now−t_d_prev)}·min_{a'} Q(s_now,a'))`
into the entry for `(s_prev, a_prev)` — with a minimization over
`{STOP, CONTINUE}` — and leaves every other Q-table entry unchanged.
(`ElevatorControlEvent.execute` passes `reward = cost_accumulator`, the cost
accumulated since the previous decision, and calls `update` before it
overwrites `decision_time`, so `ag.decision_time` is the previous decision
time.) -/
theorem qlearner_update_formula (ag : ElevatorQAgent) (now : ℝ)
    (ns : LearningState) (reward : ℝ) :
    ag.update now ns reward (ag.last_state, ag.last_action) =
      (1 - ag.alpha) * ag.qvalues (ag.last_state, ag.last_action) +
        ag.alpha * (reward + Real.exp (-ag.beta * (now - ag.decision_time)) *
          min (ag.qvalues (ns, ElevatorState.STOP))
              (ag.qvalues (ns, ElevatorState.CONTINUE))) ∧
    ∀ k, k ≠ (ag.last_state, ag.last_action) →
      ag.update now ns reward k = ag.qvalues k := by
  constructor
  · simp [ElevatorQAgent.update, ElevatorQAgent.get_qvalue]
  · intro k hk
    simp [ElevatorQAgent.update, hk]

/-- Witness for C2 at a concrete agent and a concrete distinct key. -/
theorem qlearner_update_formula_witness :
    (let ag : ElevatorQAgent :=
      { qvalues := fun k => if k = ((0, 0, 0, 0, 0, 0, 1), ElevatorState.STOP) then 5 else 2
        beta := 1 / 100, decision_time := 3, cost_accumulator := 0
        episodes_so_far := 0, last_state := (0, 0, 0, 0, 0, 0, 1)
        last_action := ElevatorState.STOP }
     ag.update 7 (1, 0, 0, 0, 0, 0, 1) 4 ((2, 0, 0, 0, 0, 0, 1), ElevatorState.STOP) =
       ag.qvalues ((2, 0, 0, 0, 0, 0, 1), ElevatorState.STOP)) := by
  exact (qlearner_update_formula _ 7 (1, 0, 0, 0, 0, 0, 1) 4).2
    ((2, 0, 0, 0, 0, 0, 1), ElevatorState.STOP) (by decide)

/-! ### Passengers and floors (environment.py) -/

structure Passenger where
  id : ℕ
  /-- Level of the origin floor (the source keeps a back-reference
  `passenger.floor`; only its `level` is consulted). -/
  floorLevel : ℕ
  target : ℕ
  status : ℤ
  arrival_time : ℚ
  boarded_time : ℚ
deriving DecidableEq, Repr

namespace Passenger

def WAITING : ℤ := 0
def BOARDED : ℤ := 1

/-- `Passenger.going_up`: `target > floor.level`. -/
def going_up (p : Passenger) : Bool := p.target > p.floorLevel

/-- `Passenger.going_down`: `target < floor.level`. -/
def going_down (p : Passenger) : Bool := p.target < p.floorLevel

end Passenger

structure Floor where
  level : ℕ
  pos : ℚ
  passengers_up : List Passenger
  passengers_down : List Passenger
  up : Bool
  down : Bool
deriving DecidableEq, Repr

namespace Floor

/-- `Floor.__init__(level)`. -/
def init (level : ℕ) : Floor :=
  { level := level, pos := FLOOR_HEIGHT * level, passengers_up := []
    passengers_down := [], up := false, down := false }

/-- `Floor.all_passengers`: down passengers then up passengers. -/
def all_passengers (f : Floor) : List Passenger :=
  f.passengers_down ++ f.passengers_up

def num_waiting (f : Floor) : ℕ := f.all_passengers.length

def num_up (f : Floor) : ℕ := f.passengers_up.length

def num_down (f : Floor) : ℕ := f.passengers_down.length

def has_passengers (f : Floor) : Bool := f.num_waiting > 0

/-- `Floor.get_buttons`: `(down, up)` in that order. -/
def get_buttons (f : Floor) : Bool × Bool := (f.down, f.up)

end Floor

/-! ### Elevator state (environment.py) -/

structure ElevatorState where
  floor : ℕ
  direction : ℤ
  current_action : ℤ
  capacity : ℕ
  /-- `passengers`: dict mapping each target floor `0 … num_floors−1` to the
  list of boarded passengers heading there; modelled as a list indexed by
  target floor. -/
  passengers : List (List Passenger)
  status : ℤ
  acc : ℚ
  vel : ℚ
  pos : ℚ
  reference_time : ℚ
  accelerating_decision_made : Bool
  full_speed_decision_made : Bool
  stop_target : ℤ
deriving DecidableEq, Repr

namespace ElevatorState

def num_passengers (es : ElevatorState) : ℕ :=
  (es.passengers.map List.length).sum

def num_passengers_up (es : ElevatorState) : ℕ :=
  (es.passengers.map (fun ps =>
    match ps with
    | [] => 0
    | p :: _ => if p.going_up then ps.length else 0)).sum

def num_passengers_down (es : ElevatorState) : ℕ :=
  (es.passengers.map (fun ps =>
    match ps with
    | [] => 0
    | p :: _ => if p.going_down then ps.length else 0)).sum

def is_empty (es : ElevatorState) : Bool := es.num_passengers == 0

def passengers_as_list (es : ElevatorState) : List Passenger :=
  es.passengers.flatten

/-- `ElevatorState.capacity_left`: `capacity - num_passengers()`. -/
def capacity_left (es : ElevatorState) : ℤ :=
  (es.capacity : ℤ) - es.num_passengers

/-- `ElevatorState.is_full`: the source reads
`return self.capacity_left == 0` — it compares the *bound method object*
`self.capacity_left` (the parentheses are missing) with `0`, which is never
equal, so the expression evaluates to `False` on every elevator state. -/
def is_full (_es : ElevatorState) : Bool := false

/-- `ElevatorState.car_calls`: targets of non-empty buckets lying further
along the current direction, in increasing floor order (dict iteration
order is `0 … num_floors−1`). -/
def car_calls (es : ElevatorState) : List ℕ :=
  (es.passengers.enum.filter (fun fp =>
    !fp.2.isEmpty &&
      ((es.direction == ElevatorState.UP && fp.1 > es.floor) ||
       (es.direction == ElevatorState.DOWN && fp.1 < es.floor)))).map (·.1)

def num_car_calls (es : ElevatorState) : ℕ := es.car_calls.length

def is_action_in_progress (es : ElevatorState) : Bool :=
  es.current_action != ElevatorState.NO_ACTION

def is_passenger_getting_off (es : ElevatorState) : Bool :=
  !(es.passengers.getD es.floor []).isEmpty

end ElevatorState

/-! ### Environment (environment.py) -/

structure Environment where
  floors : List Floor
deriving DecidableEq, Repr

namespace Environment

/-- `num_floors`: the constructor sets it to the number of floors. -/
def num_floors (env : Environment) : ℕ := env.floors.length

/-- The down components of `Environment.get_buttons` (`buttons[0]` of each
floor pair). -/
def buttons_down (env : Environment) : List Bool :=
  env.floors.map (fun f => f.get_buttons.1)

/-- The up components of `Environment.get_buttons` (`buttons[1]` of each
floor pair). -/
def buttons_up (env : Environment) : List Bool :=
  env.floors.map (fun f => f.get_buttons.2)

/-- Python `sum` over a list of booleans (`True` counts as 1). -/
def boolSum (l : List Bool) : ℕ := (l.filter id).length

/-- `Environment.no_buttons_pressed`. -/
def no_buttons_pressed (env : Environment) : Bool :=
  boolSum (buttons_down env) + boolSum (buttons_up env) == 0

/-- `Environment.num_hall_calls(level, down, above, down_up)`.  With
`down_up = True` (its default) the `down` flag is ignored and both button
arrays are summed; `buttons[level+1:]` is `drop (level+1)`, `buttons[:level]`
is `take level`. -/
def num_hall_calls (env : Environment) (level : ℕ)
    (down above down_up : Bool) : ℕ :=
  if down_up then
    if above then
      boolSum ((buttons_down env).drop (level + 1)) +
        boolSum ((buttons_up env).drop (level + 1))
    else
      boolSum ((buttons_down env).take level) +
        boolSum ((buttons_up env).take level)
  else
    let buttons := if down then buttons_down env else buttons_up env
    if above then boolSum (buttons.drop (level + 1))
    else boolSum (buttons.take level)

/-- `Environment.is_hall_call`. -/
def is_hall_call (env : Environment) (level : ℕ)
    (down above down_up : Bool) : Bool :=
  env.num_hall_calls level down above down_up > 0

/-- `Environment.get_passengers_waiting`: all waiting passengers, floor by
floor. -/
def get_passengers_waiting (env : Environment) : List Passenger :=
  env.floors.flatMap Floor.all_passengers

/-- `Environment.get_learning_state(elevator_state)`.  The four
`num_hall_calls` calls pass only `down=` and `above=`, so `down_up` keeps
its default `True`. -/
def get_learning_state (env : Environment) (es : ElevatorState) : LearningState :=
  (env.num_hall_calls es.floor true true true,
   env.num_hall_calls es.floor false true true,
   env.num_hall_calls es.floor true false true,
   env.num_hall_calls es.floor false false true,
   es.num_car_calls, es.floor, es.direction)

end Environment

/-- The learning state that `get_learning_state`'s own docstring (and the
specification) describe: up hall calls above, down hall calls above, up
hall calls below, down hall calls below — four direction-specific counts —
then car calls in the current direction, floor and direction.  This is the
spec-side definition used to compare against the code. -/
def get_learning_state_documented (env : Environment) (es : ElevatorState) :
    LearningState :=
  (env.num_hall_calls es.floor false true false,
   env.num_hall_calls es.floor true true false,
   env.num_hall_calls es.floor false false false,
   env.num_hall_calls es.floor true false false,
   es.num_car_calls, es.floor, es.direction)

/-- A building of five empty floors except a single down-bound waiter on
floor 3 (down button on), as left by `Floor.add_passenger`. -/
def envHallCalls : Environment :=
  { floors :=
      [Floor.init 0, Floor.init 1, Floor.init 2,
       { Floor.init 3 with
          passengers_down :=
            [{ id := 0, floorLevel := 3, target := 0, status := Passenger.WAITING
               arrival_time := 0, boarded_time := 0 }]
          down := true },
       Floor.init 4] }

/-- An empty elevator on floor 1 heading up. -/
def esHallCalls : ElevatorState :=
  { floor := 1, direction := ElevatorState.UP
    current_action := ElevatorState.NO_ACTION, capacity := 20
    passengers := [[], [], [], [], []], status := ElevatorState.ACCELERATING
    acc := 0, vel := 0, pos := 0, reference_time := 0
    accelerating_decision_made := false, full_speed_decision_made := false
    stop_target := -1 }

/-- C3 fails on the code: with one *down* hall call above the elevator and
no up hall call anywhere, the first component of `get_learning_state` is 1,
although the claim (and the function's own docstring) says it is the number
of *up* hall calls above, i.e. 0.  Every one of the four counts is the
direction-blind total, because each `num_hall_calls` call leaves `down_up`
at its default `True`. -/
theorem get_learning_state_ignores_call_direction :
    Environment.get_learning_state envHallCalls esHallCalls = (1, 1, 0, 0, 0, 1, 1) ∧
    get_learning_state_documented envHallCalls esHallCalls = (0, 1, 0, 0, 0, 1, 1) ∧
    Environment.get_learning_state envHallCalls esHallCalls ≠
      get_learning_state_documented envHallCalls esHallCalls := by
  refine ⟨?_, ?_, ?_⟩ <;> decide

/-! ### Legal-action computation (environment.py) -/

inductive PyErr
  | typeError
  | assertionError
  | indexError
deriving DecidableEq, Repr

/-- `ElevatorState.is_decision_point(environment)`. -/
def ElevatorState.is_decision_point (env : Environment) (es : ElevatorState) : Bool :=
  let last_floor_pos := (env.floors.getD es.floor (Floor.init 0)).pos
  let elevator_dist := |es.pos - last_floor_pos|
  (es.status == ElevatorState.ACCELERATING && !es.accelerating_decision_made &&
    decide (elevator_dist ≥ ACCEL_DECISION_DIST - GENERAL_EPS)) ||
  (es.status == ElevatorState.FULL_SPEED && !es.full_speed_decision_made &&
    decide (elevator_dist ≥ FULL_SPEED_DECISION_DIST - GENERAL_EPS))

/-- `ElevatorState.next_floor(floors, amount)`: asserts
`0 <= floor + direction*amount <= len(floors)` and then indexes (an index
equal to `len(floors)` passes the assert but raises `IndexError`). -/
def ElevatorState.next_floor (es : ElevatorState) (floors : List Floor)
    (amount : ℤ) : Except PyErr Floor :=
  let idx : ℤ := (es.floor : ℤ) + es.direction * amount
  if 0 ≤ idx ∧ idx ≤ floors.length then
    match floors.get? idx.toNat with
    | some f => .ok f
    | none => .error .indexError
  else .error .assertionError

/-- `ElevatorState.is_passenger_next_floor(floors, amount)`. -/
def ElevatorState.is_passenger_next_floor (es : ElevatorState)
    (floors : List Floor) (amount : ℤ) : Except PyErr Bool := do
  let nf ← es.next_floor floors amount
  return nf.has_passengers

/-- `Environment.get_possible_actions(elevator_state)`.  Returns the action
tuple together with the elevator state (the source mutates
`elevator_state.stop_target` in the decision-point branch). -/
def Environment.get_possible_actions (env : Environment) (es : ElevatorState) :
    Except PyErr (List ℤ × ElevatorState) :=
  if es.is_action_in_progress || es.status == ElevatorState.BOARDING ||
      (env.no_buttons_pressed && es.is_empty) then
    .ok ([], es)
  else if es.status == ElevatorState.IDLE then
    if env.is_hall_call es.floor false true true then
      .ok ([ElevatorState.MOVE_UP], es)
    else
      .ok ([ElevatorState.MOVE_DOWN], es)
  else if es.status == ElevatorState.DONE_BOARDING then
    if es.num_passengers_up * es.num_passengers_down ≠ 0 then
      .error .assertionError
    else if es.num_passengers_down > 0 then
      .ok ([ElevatorState.MOVE_DOWN], es)
    else if es.num_passengers_up > 0 then
      .ok ([ElevatorState.MOVE_UP], es)
    else if env.is_hall_call es.floor false true true then
      .ok ([ElevatorState.MOVE_UP], es)
    else if env.is_hall_call es.floor false false true then
      .ok ([ElevatorState.MOVE_DOWN], es)
    else
      .ok ([], es)
  else if es.is_decision_point env then do
    let amount : ℤ := if es.status == ElevatorState.ACCELERATING then 1 else 2
    let nf ← es.next_floor env.floors amount
    let stop_target := nf.level
    let es1 := { es with stop_target := (stop_target : ℤ) }
    if stop_target = 0 ∨ stop_target = env.num_floors - 1 then
      return ([ElevatorState.STOP], es1)
    else if es1.car_calls.contains stop_target then
      return ([ElevatorState.STOP], es1)
    else do
      let pnext ← es1.is_passenger_next_floor env.floors amount
      if !pnext || es1.is_full then
        return ([ElevatorState.CONTINUE], es1)
      else
        return ([ElevatorState.STOP, ElevatorState.CONTINUE], es1)
  else
    .ok ([], es)

/-- A passenger boarded towards floor 4. -/
def pBoarded : Passenger :=
  { id := 0, floorLevel := 0, target := 4, status := Passenger.BOARDED
    arrival_time := 0, boarded_time := 0 }

/-- A building of five floors, empty except one up-bound waiter on floor 2
(up button on). -/
def envFullLoad : Environment :=
  { floors :=
      [Floor.init 0, Floor.init 1,
       { Floor.init 2 with
          passengers_up :=
            [{ id := 1, floorLevel := 2, target := 4, status := Passenger.WAITING
               arrival_time := 0, boarded_time := 0 }]
          up := true },
       Floor.init 3, Floor.init 4] }

/-- An elevator filled to capacity (20 of 20) with passengers bound for
floor 4, accelerating upward past floor 1, exactly at the accelerating
decision point (distance 1.83 from floor 1). -/
def esFullLoad : ElevatorState :=
  { floor := 1, direction := ElevatorState.UP
    current_action := ElevatorState.NO_ACTION, capacity := 20
    passengers := [[], [], [], [], List.replicate 20 pBoarded]
    status := ElevatorState.ACCELERATING
    acc := 0, vel := 1, pos := 549 / 100, reference_time := 0
    accelerating_decision_made := false, full_speed_decision_made := false
    stop_target := -1 }

/-- C4 fails on the code: the elevator is full (20 of 20 passengers),
stop_target = 2 is neither ground nor top floor and is not a car call, and
a passenger waits at floor 2 — yet `get_possible_actions` returns the pair
`(STOP, CONTINUE)` instead of the forced `(CONTINUE,)`, because `is_full`
compares the bound method `capacity_left` with 0 and is therefore always
`False`. -/
theorem get_possible_actions_full_elevator_not_forced :
    esFullLoad.num_passengers = esFullLoad.capacity ∧
    envFullLoad.get_possible_actions esFullLoad =
      .ok ([ElevatorState.STOP, ElevatorState.CONTINUE],
           { esFullLoad with stop_target := 2 }) := by
  constructor
  · decide
  · have habs : |(183 : ℚ) / 100| = 183 / 100 := abs_of_nonneg (by norm_num)
    have hdp : esFullLoad.is_decision_point envFullLoad = true := by
      norm_num [ElevatorState.is_decision_point, esFullLoad, envFullLoad,
        Floor.init, FLOOR_HEIGHT, ACCEL_DECISION_DIST, GENERAL_EPS,
        ElevatorState.ACCELERATING, habs]
    simp only [Environment.get_possible_actions, hdp]
    rfl

/-! ### Boarding (environment.py, Floor.board_passengers)

`board_passengers` schedules `PassengerTransferEvent`s (exits first, then
boardings at 1-second spacing) and one `DoneBoardingEvent`; it clears the
served hall button when the queue is fully drained. -/

inductive BoardEvent
  /-- `PassengerTransferEvent(time, passenger, elevator_state, to_elevator)`. -/
  | transfer (time : ℚ) (p : Passenger) (to_elevator : Bool)
  /-- `DoneBoardingEvent(time, elevator_state)`. -/
  | doneBoarding (time : ℚ)
deriving DecidableEq, Repr

def BoardEvent.is_boarding_transfer : BoardEvent → Bool
  | .transfer _ _ to_elevator => to_elevator
  | .doneBoarding _ => false

/-- `Floor.board_passengers(simulator, elevator_state)`.  Returns the
events inserted into the queue (in insertion order) and the updated floor
(the button mutations target `environment.floors[elevator_state.floor]`,
which is this floor when the elevator stops here).  `passengers_boarding`
is `None` unless one of the direction branches assigns it; a sliced list
keeps only the first `capacity_left` waiters (`Int.toNat` mirrors the
non-negative slice bound).  The final `if passengers_boarding:` treats both
`None` and the empty list as false. -/
def Floor.board_passengers (f : Floor) (now : ℚ) (es : ElevatorState) :
    List BoardEvent × Floor :=
  let passengers_off := es.passengers.getD es.floor []
  let off_events := passengers_off.enum.map
    (fun ip => BoardEvent.transfer (now + 1 + ip.1) ip.2 false)
  let boarding_time : ℚ := 1 + passengers_off.length
  let capacity_left : ℤ := es.capacity_left + passengers_off.length
  let num_up := f.num_up
  let num_down := f.num_down
  let chosen : Option (List Passenger) × Floor :=
    if es.direction == ElevatorState.UP then
      if num_up > 0 then
        if capacity_left < num_up then
          (some (f.passengers_up.take capacity_left.toNat), f)
        else
          (some f.passengers_up, { f with up := false })
      else if num_down > 0 && es.num_passengers_up == 0 then
        if capacity_left < num_down then
          (some (f.passengers_down.take capacity_left.toNat), f)
        else
          (some f.passengers_down, { f with down := false })
      else (none, f)
    else if es.direction == ElevatorState.DOWN then
      if num_down > 0 then
        if capacity_left < num_down then
          (some (f.passengers_down.take capacity_left.toNat), f)
        else
          (some f.passengers_down, { f with down := false })
      -- source: `elif num_down > 0 and elevator_state.num_passengers_down() == 0`
      -- (reached only when `num_down == 0`, so this branch can never fire)
      else if num_down > 0 && es.num_passengers_down == 0 then
        if capacity_left < num_up then
          (some (f.passengers_up.take capacity_left.toNat), f)
        else
          (some f.passengers_up, { f with up := false })
      else (none, f)
    else (none, f)
  match chosen with
  | (some (p :: ps), f1) =>
    let boarding := p :: ps
    let on_events := boarding.enum.map
      (fun ip => BoardEvent.transfer (now + boarding_time + ip.1) ip.2 true)
    (off_events ++ on_events ++
      [BoardEvent.doneBoarding (now + boarding_time + boarding.length - 1 + GENERAL_EPS)],
     f1)
  | (_, f1) =>
    (off_events ++ [BoardEvent.doneBoarding (now + boarding_time - 1)], f1)

/-- An up-bound waiter used in the boarding scenarios. -/
def pWaiterUp (n : ℕ) : Passenger :=
  { id := n, floorLevel := 3, target := 4, status := Passenger.WAITING
    arrival_time := 0, boarded_time := 0 }

/-- A down-bound waiter used in the boarding scenarios. -/
def pWaiterDown (n : ℕ) : Passenger :=
  { id := n, floorLevel := 3, target := 0, status := Passenger.WAITING
    arrival_time := 0, boarded_time := 0 }

/-- Floor 3 with two up-bound waiters and nobody going down. -/
def floorUpWaiters : Floor :=
  { level := 3, pos := FLOOR_HEIGHT * 3
    passengers_up := [pWaiterUp 1, pWaiterUp 2], passengers_down := []
    up := true, down := false }

/-- Floor 3 with two down-bound waiters and nobody going up. -/
def floorDownWaiters : Floor :=
  { level := 3, pos := FLOOR_HEIGHT * 3
    passengers_up := [], passengers_down := [pWaiterDown 1, pWaiterDown 2]
    up := false, down := true }

/-- An empty elevator boarding at floor 3, movable direction. -/
def esBoarding (direction : ℤ) : ElevatorState :=
  { floor := 3, direction := direction
    current_action := ElevatorState.NO_ACTION, capacity := 20
    passengers := [[], [], [], [], []], status := ElevatorState.BOARDING
    acc := 0, vel := 0, pos := FLOOR_HEIGHT * 3, reference_time := 0
    accelerating_decision_made := false, full_speed_decision_made := false
    stop_target := 3 }

/-- C5 fails on the code: an elevator with direction DOWN, zero down-bound
passengers, at a floor with no down-waiters but two up-waiters, boards
nobody — the mirror branch reads `num_down > 0` where the UP branch reads
`num_down > 0` (i.e. the other queue), so it is dead — whereas in the
mirror-image UP situation the code does board the two down-waiters. -/
theorem board_passengers_down_mirror_is_dead :
    ((floorUpWaiters.board_passengers 0 (esBoarding ElevatorState.DOWN)).1.countP
        BoardEvent.is_boarding_transfer = 0 ∧
      (floorUpWaiters.board_passengers 0 (esBoarding ElevatorState.DOWN)).2 =
        floorUpWaiters) ∧
    ((floorDownWaiters.board_passengers 0 (esBoarding ElevatorState.UP)).1.countP
        BoardEvent.is_boarding_transfer = 2 ∧
      (floorDownWaiters.board_passengers 0 (esBoarding ElevatorState.UP)).2 =
        { floorDownWaiters with down := false }) := by
  refine ⟨⟨?_, ?_⟩, ?_, ?_⟩ <;> rfl

/-! ### Event executions with wrong call arity (events.py)

Python raises `TypeError` when a call supplies more positional arguments
than the function accepts; the check happens before the callee body runs. -/

/-- Number of arguments (after `self`) a Python method accepts, versus the
number supplied at a call site. -/
def checkArity (expected given : ℕ) : Option PyErr :=
  if given = expected then none else some .typeError

/-- `Passenger.enter_elevator(self, elevator_state)` accepts one argument
after `self`. -/
def enter_elevator_params : ℕ := 1

/-- `Environment.update_accumulated_cost(self, simulator)` accepts one
argument after `self`. -/
def env_update_accumulated_cost_params : ℕ := 1

/-- Outcome of executing a `PassengerTransferEvent`: the floor, passenger
and elevator after the event, plus the exception if one escapes. -/
structure TransferOutcome where
  floor : Floor
  passenger : Passenger
  elevator : ElevatorState
  err : Option PyErr
deriving Repr

/-- `PassengerTransferEvent.execute(simulator)` for `to_elevator=True`:
pops the head of the matching queue, then evaluates
`self.passenger.enter_elevator(self.elevator_state, simulator.now())` —
two positional arguments against a one-argument signature, hence
`TypeError` before `enter_elevator`'s body (which would set the status and
append to the bucket, and nowhere assigns `boarded_time`) can run. -/
def passengerTransferExecuteToElevator (p : Passenger) (f : Floor)
    (es : ElevatorState) (_now : ℚ) : TransferOutcome :=
  let f1 :=
    if p.going_up then { f with passengers_up := f.passengers_up.tail }
    else { f with passengers_down := f.passengers_down.tail }
  match checkArity enter_elevator_params 2 with
  | some e => { floor := f1, passenger := p, elevator := es, err := some e }
  | none =>
    -- body of `Passenger.enter_elevator` (never reached):
    { floor := f1
      passenger := { p with status := Passenger.BOARDED }
      elevator :=
        { es with passengers :=
            es.passengers.set p.target ((es.passengers.getD p.target []) ++ [p]) }
      err := none }

/-- C6 fails on the code: every boarding transfer raises `TypeError` (the
`enter_elevator` call passes `simulator.now()` as an extra positional
argument), after the passenger was already popped from the floor queue; the
passenger record and the elevator are left untouched — the status never
becomes BOARDED, the passenger is never appended to the target bucket, and
`boarded_time` (which no source line ever assigns) keeps its initial 0. -/
theorem passenger_transfer_to_elevator_raises (p : Passenger) (f : Floor)
    (es : ElevatorState) (now : ℚ) :
    (passengerTransferExecuteToElevator p f es now).err = some PyErr.typeError ∧
    (passengerTransferExecuteToElevator p f es now).passenger = p ∧
    (passengerTransferExecuteToElevator p f es now).elevator = es := by
  refine ⟨rfl, rfl, rfl⟩

/-- Outcome of executing a `PassengerArrivalEvent`: floor after the
arrival, the time of the generated follow-on arrival, and the exception if
one escapes. -/
structure ArrivalOutcome where
  floor : Floor
  next_arrival_time : ℚ
  err : Option PyErr
deriving Repr

/-- `Floor.update_button(passenger=True, target)`. -/
def Floor.update_button (f : Floor) (target : ℕ) : Floor :=
  if target < f.level ∧ ¬f.down then { f with down := true }
  else if target > f.level ∧ ¬f.up then { f with up := true }
  else f

/-- `Floor.add_passenger(passenger)`: append to the direction queue, then
update the hall button. -/
def Floor.add_passenger (f : Floor) (p : Passenger) : Floor :=
  let f1 :=
    if p.going_up then { f with passengers_up := f.passengers_up ++ [p] }
    else { f with passengers_down := f.passengers_down ++ [p] }
  f1.update_button p.target

/-- `PassengerArrivalEvent.execute(simulator)`: create the passenger, add
it to the floor (`arrive_at_floor`), generate the follow-on arrival
(`self.generate(simulator)`), then evaluate
`simulator.environment.update_accumulated_cost(simulator, self.time)` —
two positional arguments against a one-argument signature, hence
`TypeError`; the trailing `last_accumulator_event_time = self.time`
assignment is never reached.  The sampled target floor and exponential
inter-arrival gap enter as parameters. -/
def passengerArrivalExecute (time : ℚ) (f : Floor) (pid : ℕ) (target : ℕ)
    (inter_arrival : ℚ) : ArrivalOutcome :=
  let p : Passenger :=
    { id := pid, floorLevel := f.level, target := target
      status := Passenger.WAITING, arrival_time := time, boarded_time := 0 }
  let f1 := f.add_passenger p
  let next_time := time + inter_arrival
  match checkArity env_update_accumulated_cost_params 2 with
  | some e => { floor := f1, next_arrival_time := next_time, err := some e }
  | none => { floor := f1, next_arrival_time := next_time, err := none }

/-- C10 holds: executing any `PassengerArrivalEvent` enqueues the follow-on
arrival and then raises `TypeError`, because the
`update_accumulated_cost(simulator, self.time)` call supplies two
positional arguments while `Environment.update_accumulated_cost` accepts
only the simulator; the first passenger arrival of every episode hits it. -/
theorem passenger_arrival_execute_raises (time : ℚ) (f : Floor) (pid : ℕ)
    (target : ℕ) (inter_arrival : ℚ) :
    (passengerArrivalExecute time f pid target inter_arrival).err =
      some PyErr.typeError ∧
    (passengerArrivalExecute time f pid target inter_arrival).next_arrival_time =
      time + inter_arrival ∧
    checkArity env_update_accumulated_cost_params 2 = some PyErr.typeError := by
  refine ⟨rfl, rfl, rfl⟩

/-! ### Cost accumulator (qlearningAgents.ElevatorQAgent.update_accumulated_cost)

The waiting times and exponentials live in `ℝ`; a waiting passenger is
reduced to the fields `waiting_time` reads. -/

structure PassengerW where
  arrival_time : ℝ
  boarded_time : ℝ
  status : ℤ

/-- `Passenger.waiting_time(t)`:
`(t - arrival_time) * (t > arrival_time) - boarded_time * (status == BOARDED)`
with booleans multiplying as 0/1. -/
noncomputable def PassengerW.waiting_time (p : PassengerW) (t : ℝ) : ℝ :=
  (t - p.arrival_time) * (if t > p.arrival_time then 1 else 0) -
    p.boarded_time * (if p.status = Passenger.BOARDED then 1 else 0)

/-- `ElevatorQAgent.update_accumulated_cost`: the `result` accumulated over
`get_passengers_waiting()`; the caller then adds it to `cost_accumulator`.
`b = beta`, `d = decision_time`, `t0 = last_accumulator_event_time`,
`t1 = current_event_time`.  The literal `10e-6` is `10·10⁻⁶ = 10⁻⁵`. -/
noncomputable def elevatorUpdateAccumulatedCost (b d t0 t1 : ℝ)
    (waiting : List PassengerW) : ℝ :=
  waiting.foldl
    (fun result p =>
      let w_0 := p.waiting_time t0
      let w_1 := p.waiting_time t1
      let w_0 := if |w_0| ≤ (GENERAL_EPS : ℝ) then 0 else w_0
      let w_1 := if |w_1| ≤ (GENERAL_EPS : ℝ) then 0 else w_1
      let part_0 := Real.exp (-b * (t0 - d)) *
        (2 / b ^ 3 + 2 * w_0 / b ^ 2 + w_0 ^ 2 / b)
      let part_1 := Real.exp (-b * (t1 - d)) *
        (2 / b ^ 3 + 2 * w_1 / b ^ 2 + w_1 ^ 2 / b)
      result + (part_0 - part_1) * (10 / 1000000))
    0

/-- The per-passenger contribution the specification claims, with scale
`10⁻⁶` and the raw waiting times `w0`, `w1`.  This is the spec-side
definition used to compare against the code. -/
noncomputable def specDeltaCost (b d t0 t1 w0 w1 : ℝ) : ℝ :=
  (Real.exp (-b * (t0 - d)) * (2 / b ^ 3 + 2 * w0 / b ^ 2 + w0 ^ 2 / b) -
   Real.exp (-b * (t1 - d)) * (2 / b ^ 3 + 2 * w1 / b ^ 2 + w1 ^ 2 / b)) *
    (1 / 1000000)

/-- Waiting times snapped to 0 when `|w| ≤ GENERAL_EPS`, as in the code. -/
noncomputable def snapEps (w : ℝ) : ℝ :=
  if |w| ≤ (GENERAL_EPS : ℝ) then 0 else w

/-- The per-passenger contribution actually added: scale `10⁻⁵` and
snapped waiting times. -/
noncomputable def amendedDeltaCost (b d t0 t1 : ℝ) (p : PassengerW) : ℝ :=
  (Real.exp (-b * (t0 - d)) *
      (2 / b ^ 3 + 2 * snapEps (p.waiting_time t0) / b ^ 2 +
        snapEps (p.waiting_time t0) ^ 2 / b) -
   Real.exp (-b * (t1 - d)) *
      (2 / b ^ 3 + 2 * snapEps (p.waiting_time t1) / b ^ 2 +
        snapEps (p.waiting_time t1) ^ 2 / b)) * (1 / 100000)

/-- A passenger who has been waiting since time −1 (waiting time 1 at
`t0 = 0` and 2 at `t1 = 1`). -/
noncomputable def pWaitingSinceMinusOne : PassengerW :=
  { arrival_time := -1, boarded_time := 0, status := Passenger.WAITING }

/-- Counterexample to C7: with `β = 1`, decision time 0, interval
`[0, 1]` and one passenger waiting since −1 (waiting times 1 and 2,
both above `GENERAL_EPS`), the amount the code adds is not the claimed
`Δcost · 10⁻⁶` — the code multiplies by the literal `10e-6`, which is
`10⁻⁵`. -/
theorem update_accumulated_cost_scale_counterexample :
    elevatorUpdateAccumulatedCost 1 0 0 1 [pWaitingSinceMinusOne] ≠
      specDeltaCost 1 0 0 1 1 2 := by
  have hw0 : PassengerW.waiting_time pWaitingSinceMinusOne 0 = 1 := by
    norm_num [PassengerW.waiting_time, pWaitingSinceMinusOne,
      Passenger.WAITING, Passenger.BOARDED]
  have hw1 : PassengerW.waiting_time pWaitingSinceMinusOne 1 = 2 := by
    norm_num [PassengerW.waiting_time, pWaitingSinceMinusOne,
      Passenger.WAITING, Passenger.BOARDED]
  have hE : Real.exp (-1) < 1 / 2 := by
    rw [Real.exp_neg]
    have h2 : (2 : ℝ) < Real.exp 1 :=
      lt_trans (by norm_num) Real.exp_one_gt_d9
    have := inv_lt_inv_of_lt (by norm_num : (0:ℝ) < 2) h2
    simpa using this
  simp only [elevatorUpdateAccumulatedCost, specDeltaCost, List.foldl, hw0, hw1]
  norm_num [GENERAL_EPS, abs_of_nonneg, Real.exp_zero]
  intro heq
  nlinarith [Real.exp_pos (-1 : ℝ), hE]

/-- C7 amended: each update adds, per currently waiting passenger, the
closed-form contribution with the waiting times snapped to 0 inside
`GENERAL_EPS` and the scale factor `10⁻⁵` (the code's literal `10e-6`). -/
theorem update_accumulated_cost_closed_form (b d t0 t1 : ℝ)
    (waiting : List PassengerW) :
    elevatorUpdateAccumulatedCost b d t0 t1 waiting =
      (waiting.map (amendedDeltaCost b d t0 t1)).sum := by
  have hgen : ∀ (ps : List PassengerW) (a : ℝ),
      ps.foldl
        (fun result p =>
          let w_0 := p.waiting_time t0
          let w_1 := p.waiting_time t1
          let w_0 := if |w_0| ≤ (GENERAL_EPS : ℝ) then 0 else w_0
          let w_1 := if |w_1| ≤ (GENERAL_EPS : ℝ) then 0 else w_1
          let part_0 := Real.exp (-b * (t0 - d)) *
            (2 / b ^ 3 + 2 * w_0 / b ^ 2 + w_0 ^ 2 / b)
          let part_1 := Real.exp (-b * (t1 - d)) *
            (2 / b ^ 3 + 2 * w_1 / b ^ 2 + w_1 ^ 2 / b)
          result + (part_0 - part_1) * (10 / 1000000)) a =
        a + (ps.map (amendedDeltaCost b d t0 t1)).sum := by
    intro ps
    induction ps with
    | nil => intro a; simp
    | cons p ps ih =>
      intro a
      simp only [List.foldl_cons, List.map_cons, List.sum_cons, ih]
      simp only [amendedDeltaCost, snapEps]
      ring
  have h := hgen waiting 0
  rw [zero_add] at h
  exact h

/-! ### The event queue (simulator.py, CPython heapq)

`Simulator.insert` is `heapq.heappush(self.events, event)` and
`Simulator.process_events` pops with `heapq.heappop` while the top event is
due.  Events compare with `Event.__lt__`, i.e. by time only.  The
`siftdown`/`siftup` routines below are the pure-Python reference
implementation of CPython's `heapq`, with fuel bounds large enough for
every call the library makes. -/

section PyHeap

variable {α : Type} [Inhabited α]

/-- `heapq._siftdown(heap, startpos, pos)`; the fuel is `pos`, which
strictly decreases on every loop iteration. -/
def siftdownAux (lt : α → α → Bool) : ℕ → List α → ℕ → ℕ → α → List α
  | 0, heap, _, pos, newitem => heap.set pos newitem
  | fuel + 1, heap, startpos, pos, newitem =>
    if startpos < pos then
      let parentpos := (pos - 1) / 2
      let parent := heap.getD parentpos default
      if lt newitem parent then
        siftdownAux lt fuel (heap.set pos parent) startpos parentpos newitem
      else heap.set pos newitem
    else heap.set pos newitem

def heapSiftdown (lt : α → α → Bool) (heap : List α) (startpos pos : ℕ) : List α :=
  siftdownAux lt pos heap startpos pos (heap.getD pos default)

/-- The loop of `heapq._siftup(heap, pos)`: move the smaller child up
until reaching a leaf; returns the heap and the final position.  The child
position at least doubles per iteration, so `heap.length` fuel suffices. -/
def siftupAux (lt : α → α → Bool) : ℕ → List α → ℕ → List α × ℕ
  | 0, heap, pos => (heap, pos)
  | fuel + 1, heap, pos =>
    let endpos := heap.length
    let childpos := 2 * pos + 1
    if childpos < endpos then
      let rightpos := childpos + 1
      let childpos2 :=
        if rightpos < endpos &&
            !(lt (heap.getD childpos default) (heap.getD rightpos default)) then
          rightpos
        else childpos
      siftupAux lt fuel (heap.set pos (heap.getD childpos2 default)) childpos2
    else (heap, pos)

/-- `heapq._siftup(heap, pos)`: loop, write `newitem` at the final
position, then `_siftdown(heap, startpos, pos)`. -/
def heapSiftup (lt : α → α → Bool) (heap : List α) (pos : ℕ) : List α :=
  let startpos := pos
  let newitem := heap.getD pos default
  let hp := siftupAux lt heap.length heap pos
  heapSiftdown lt (hp.1.set hp.2 newitem) startpos hp.2

/-- `heapq.heappush`: append, then `_siftdown(heap, 0, len(heap)-1)`. -/
def heappush (lt : α → α → Bool) (heap : List α) (item : α) : List α :=
  heapSiftdown lt (heap ++ [item]) 0 heap.length

/-- `heapq.heappop`: pop the last element; if the heap is still non-empty,
return the root, move the last element there and `_siftup(heap, 0)`.
(Only called on non-empty heaps; on `[]` Python raises `IndexError`.) -/
def heappop (lt : α → α → Bool) (heap : List α) : α × List α :=
  let lastelt := heap.getLast?.getD default
  match heap.dropLast with
  | [] => (lastelt, [])
  | x :: xs => (x, heapSiftup lt ((x :: xs).set 0 lastelt) 0)

end PyHeap

/-- An `Event` as the heap sees it: its timestamp (`Event.__lt__` compares
nothing else) and its insertion sequence number, carried only so that
dispatch order can be compared with insertion order. -/
structure QEvent where
  time : ℚ
  seq : ℕ
deriving DecidableEq, Repr

instance : Inhabited QEvent := ⟨⟨0, 0⟩⟩

/-- `Event.__lt__(other)`: `self.time < other.time`. -/
def eventLT (a b : QEvent) : Bool := a.time < b.time

/-- Consecutive `Simulator.insert` calls. -/
def insertAll (heap : List QEvent) (evs : List QEvent) : List QEvent :=
  evs.foldl (heappush eventLT) heap

/-- `Simulator.process_events`: pop and execute while
`self.time >= self.events[0].time - const.GENERAL_EPS`; an empty queue
raises `IndexError`, which is caught and ends the loop.  Returns the
dispatch order.  The fuel is the queue length (each pop shrinks it). -/
def processEventsAux (now : ℚ) : ℕ → List QEvent → List QEvent
  | 0, _ => []
  | _ + 1, [] => []
  | fuel + 1, top :: rest =>
    if now ≥ top.time - GENERAL_EPS then
      (heappop eventLT (top :: rest)).1 ::
        processEventsAux now fuel (heappop eventLT (top :: rest)).2
    else []

def processEvents (now : ℚ) (heap : List QEvent) : List QEvent :=
  processEventsAux now heap.length heap

/-- Helper: one due iteration of the `process_events` loop. -/
lemma processEventsAux_cons_due (now : ℚ) (fuel : ℕ) (t : ℚ) (s : ℕ)
    (rest : List QEvent) (h : now ≥ t - GENERAL_EPS) :
    processEventsAux now (fuel + 1) (⟨t, s⟩ :: rest) =
      (heappop eventLT (⟨t, s⟩ :: rest)).1 ::
        processEventsAux now fuel (heappop eventLT (⟨t, s⟩ :: rest)).2 := by
  rw [processEventsAux, if_pos h]

/-- Counterexample to C9: four events with the same timestamp 5 are
inserted in sequence order 1, 2, 3, 4, all are due, and the scheduler
dispatches them as 1, 3, 2, 4 — the pair inserted as 2-then-3 dispatches
as 3-then-2.  Time-only comparison over a binary heap is not
insertion-stable. -/
theorem equal_time_dispatch_not_insertion_order :
    insertAll [] [⟨5, 1⟩, ⟨5, 2⟩, ⟨5, 3⟩, ⟨5, 4⟩] =
      [⟨5, 1⟩, ⟨5, 2⟩, ⟨5, 3⟩, ⟨5, 4⟩] ∧
    processEvents 5 (insertAll [] [⟨5, 1⟩, ⟨5, 2⟩, ⟨5, 3⟩, ⟨5, 4⟩]) =
      [⟨5, 1⟩, ⟨5, 3⟩, ⟨5, 2⟩, ⟨5, 4⟩] := by
  have hdue : (5 : ℚ) ≥ 5 - GENERAL_EPS := by rw [GENERAL_EPS]; norm_num
  refine ⟨rfl, ?_⟩
  show processEventsAux 5 4 [⟨5, 1⟩, ⟨5, 2⟩, ⟨5, 3⟩, ⟨5, 4⟩] = _
  rw [processEventsAux_cons_due 5 3 5 1 _ hdue]
  show (⟨5, 1⟩ : QEvent) :: processEventsAux 5 3 [⟨5, 3⟩, ⟨5, 2⟩, ⟨5, 4⟩] = _
  rw [processEventsAux_cons_due 5 2 5 3 _ hdue]
  show (⟨5, 1⟩ : QEvent) :: ⟨5, 3⟩ :: processEventsAux 5 2 [⟨5, 2⟩, ⟨5, 4⟩] = _
  rw [processEventsAux_cons_due 5 1 5 2 _ hdue]
  show (⟨5, 1⟩ : QEvent) :: ⟨5, 3⟩ :: ⟨5, 2⟩ :: processEventsAux 5 1 [⟨5, 4⟩] = _
  rw [processEventsAux_cons_due 5 0 5 4 _ hdue]
  rfl

/-- C9 amended: a pair of equal-timestamp events that are *alone* in the
queue does dispatch in insertion order (for larger queues the order can
deviate, as the counterexample shows). -/
theorem equal_time_pair_alone_dispatch_fifo (now t : ℚ) (s1 s2 : ℕ)
    (h : now ≥ t - GENERAL_EPS) :
    processEvents now (heappush eventLT (heappush eventLT [] ⟨t, s1⟩) ⟨t, s2⟩) =
      [⟨t, s1⟩, ⟨t, s2⟩] := by
  have hpush : heappush eventLT (heappush eventLT [] ⟨t, s1⟩) ⟨t, s2⟩ =
      [⟨t, s1⟩, ⟨t, s2⟩] := by
    simp [heappush, heapSiftdown, siftdownAux, eventLT, lt_self_iff_false]
  rw [processEvents, hpush]
  show processEventsAux now 2 [⟨t, s1⟩, ⟨t, s2⟩] = _
  rw [processEventsAux_cons_due now 1 t s1 _ h]
  show (⟨t, s1⟩ : QEvent) :: processEventsAux now 1 [⟨t, s2⟩] = _
  rw [processEventsAux_cons_due now 0 t s2 _ h]
  rfl

/-- Witness for the amended C9 at `now = 5`, `t = 5`, sequence numbers 1, 2. -/
theorem equal_time_pair_alone_dispatch_fifo_witness :
    (5 : ℚ) ≥ 5 - GENERAL_EPS ∧
    processEvents 5 (heappush eventLT (heappush eventLT [] ⟨5, 1⟩) ⟨5, 2⟩) =
      [⟨5, 1⟩, ⟨5, 2⟩] :=
  ⟨by rw [GENERAL_EPS]; norm_num,
   equal_time_pair_alone_dispatch_fifo 5 5 1 2 (by rw [GENERAL_EPS]; norm_num)⟩

/-! ### Motion integrator and per-tick elevator update (environment.py)

`math.cos` is an arbitrary `cosFn : ℚ → ℚ` parameter; every theorem below
holds for all `cosFn`. -/

/-- `ElevatorMotion.dacc(simulator)`: change in acceleration for one
timestep (the final branch returns 0 without the `time_step` factor). -/
def ElevatorMotion.dacc (cosFn : ℚ → ℚ) (es : ElevatorState) (now : ℚ) : ℚ :=
  let t := now - es.reference_time
  if es.status == ElevatorState.ACCELERATING then
    cosFn (ACCEL_CONST * t) * TIME_STEP
  else if es.status == ElevatorState.ACCEL_DECELERATING then
    (2 * ACCEL_DECEL_0 * t + ACCEL_DECEL_1) * TIME_STEP
  else if es.status == ElevatorState.FULL_SPEED_DECELERATING then
    -(cosFn (ACCEL_CONST * t)) * TIME_STEP
  else 0

/-- `ElevatorMotion.update(simulator)`: acceleration by status, then
`vel += acc·Δt`, then `pos += vel·Δt` (each reading the updated value). -/
def ElevatorMotion.update (cosFn : ℚ → ℚ) (now : ℚ) (es : ElevatorState) :
    ElevatorState :=
  let es1 :=
    if es.status == ElevatorState.IDLE || es.status == ElevatorState.BOARDING then
      { es with acc := 0, vel := 0 }
    else if es.status == ElevatorState.FULL_SPEED then
      { es with acc := 0, vel := (es.direction : ℚ) * MAX_SPEED }
    else
      { es with acc := es.acc + (es.direction : ℚ) * ElevatorMotion.dacc cosFn es now }
  let es2 := { es1 with vel := es1.vel + es1.acc * TIME_STEP }
  { es2 with pos := es2.pos + es2.vel * TIME_STEP }

/-- The full-speed promotion of `ElevatorState.update`: when
`|vel| ≥ MAX_SPEED − GENERAL_EPS` outside the two full-speed statuses,
set status `FULL_SPEED` and clamp `vel` to `direction · MAX_SPEED`. -/
def ElevatorState.clampStage (es : ElevatorState) : ElevatorState :=
  if decide (|es.vel| ≥ MAX_SPEED - GENERAL_EPS) &&
      !(es.status == ElevatorState.FULL_SPEED ||
        es.status == ElevatorState.FULL_SPEED_DECELERATING) then
    { es with status := ElevatorState.FULL_SPEED,
              vel := (es.direction : ℚ) * MAX_SPEED }
  else es

/-- The floor-crossing part of `ElevatorState.update`: when the elevator
has moved a full floor height from its floor's position, advance `floor`,
snap `pos`, and outside the decelerating statuses clear both
decision-made flags. -/
def ElevatorState.crossStage (env : Environment) (es : ElevatorState) :
    Except PyErr ElevatorState :=
  if decide (|es.pos - (env.floors.getD es.floor (Floor.init 0)).pos| ≥
      FLOOR_HEIGHT - GENERAL_EPS) then do
    let nf ← es.next_floor env.floors 1
    let es1 := { es with floor := nf.level, pos := nf.pos }
    if !(es1.status == ElevatorState.ACCEL_DECELERATING ||
        es1.status == ElevatorState.FULL_SPEED_DECELERATING) then
      pure { es1 with accelerating_decision_made := false,
                      full_speed_decision_made := false }
    else
      pure es1
  else
    pure es

/-- `ElevatorState.update(simulator)`: motion step, full-speed promotion,
floor crossing. -/
def ElevatorState.update (cosFn : ℚ → ℚ) (env : Environment) (now : ℚ)
    (es : ElevatorState) : Except PyErr ElevatorState :=
  ElevatorState.crossStage env (ElevatorState.clampStage
    (ElevatorMotion.update cosFn now es))

/-- `ElevatorState.do_action(simulator, action)`. -/
def ElevatorState.do_action (now : ℚ) (action : ℤ) (es : ElevatorState) :
    ElevatorState :=
  let es := { es with reference_time := now, current_action := action }
  if action == ElevatorState.MOVE_UP then
    { es with direction := ElevatorState.UP, status := ElevatorState.ACCELERATING }
  else if action == ElevatorState.MOVE_DOWN then
    { es with direction := ElevatorState.DOWN, status := ElevatorState.ACCELERATING }
  else if action == ElevatorState.STOP then
    if es.status == ElevatorState.FULL_SPEED then
      { es with status := ElevatorState.FULL_SPEED_DECELERATING,
                full_speed_decision_made := true }
    else if es.status == ElevatorState.ACCELERATING then
      { es with status := ElevatorState.ACCEL_DECELERATING,
                accelerating_decision_made := true }
    else es
  -- source: `elif self.current_action == ElevatorState.CONTINUE` (just assigned)
  else if es.current_action == ElevatorState.CONTINUE then
    if es.status == ElevatorState.FULL_SPEED then
      { es with full_speed_decision_made := true }
    else if es.status == ElevatorState.ACCELERATING then
      { es with accelerating_decision_made := true }
    else es
  else es

/-! ### The hybrid simulation loop (simulator.py)

One iteration of `Simulator.update`: advance time, integrate motion,
inspect legal actions, dispatch due events, complete actions.  A Python
exception escaping any phase aborts the whole run, so the tick never
completes: the step function returns `none` there. -/

inductive SimEvent
  | arrival (time : ℚ) (floorLevel : ℕ)
  | transfer (time : ℚ) (elevIdx : ℕ) (p : Passenger) (to_elevator : Bool)
  | doneBoarding (time : ℚ) (elevIdx : ℕ)
  | action (time : ℚ) (elevIdx : ℕ) (act : ℤ)
  | control (time : ℚ) (elevIdx : ℕ)
deriving DecidableEq, Repr

instance : Inhabited SimEvent := ⟨.arrival 0 0⟩

def SimEvent.time : SimEvent → ℚ
  | .arrival t _ => t
  | .transfer t _ _ _ => t
  | .doneBoarding t _ => t
  | .action t _ _ => t
  | .control t _ => t

def SimEvent.isArrival : SimEvent → Bool
  | .arrival _ _ => true
  | _ => false

/-- `Event.__lt__` for the simulator's queue. -/
def simEventLT (a b : SimEvent) : Bool := a.time < b.time

/-- Events produced by `Floor.board_passengers`, tagged with the
elevator's index. -/
def simEventOfBoard (elevIdx : ℕ) : BoardEvent → SimEvent
  | .transfer t p to_elevator => .transfer t elevIdx p to_elevator
  | .doneBoarding t => .doneBoarding t elevIdx

structure SimState where
  time : ℚ
  floors : List Floor
  elevators : List ElevatorState
  queue : List SimEvent
  last_accumulator_event_time : ℚ

instance : Inhabited ElevatorState :=
  ⟨{ floor := 0, direction := ElevatorState.STOPPED
     current_action := ElevatorState.NO_ACTION, capacity := 20
     passengers := [], status := ElevatorState.IDLE
     acc := 0, vel := 0, pos := 0, reference_time := 0
     accelerating_decision_made := false, full_speed_decision_made := false
     stop_target := -1 }⟩

/-- `Environment.update(simulator)`: motion update of every elevator, in
list order. -/
def updateElevatorsList (cosFn : ℚ → ℚ) (env : Environment) (now : ℚ) :
    List ElevatorState → Except PyErr (List ElevatorState)
  | [] => .ok []
  | es :: rest =>
    match ElevatorState.update cosFn env now es with
    | .error e => .error e
    | .ok es1 =>
      match updateElevatorsList cosFn env now rest with
      | .error e => .error e
      | .ok rest1 => .ok (es1 :: rest1)

/-- `Environment.process_actions(simulator)`: per elevator, compute the
legal actions, then insert an `ElevatorActionEvent` (singleton) or an
`ElevatorControlEvent` (pair) at the current time. -/
def processActionsAux (floors : List Floor) (now : ℚ) :
    List ElevatorState → ℕ → List SimEvent →
    Except PyErr (List ElevatorState × List SimEvent)
  | [], _, q => .ok ([], q)
  | es :: rest, i, q =>
    match Environment.get_possible_actions ⟨floors⟩ es with
    | .error e => .error e
    | .ok (acts, es1) =>
      let q1 :=
        if acts.length == 1 then
          heappush simEventLT q (.action now i (acts.getD 0 0))
        else if acts.length == 2 then
          heappush simEventLT q (.control now i)
        else q
      match processActionsAux floors now rest (i + 1) q1 with
      | .error e => .error e
      | .ok (rest1, q2) => .ok (es1 :: rest1, q2)

/-- `DoneBoardingEvent.execute(simulator)`. -/
def doneBoardingExecute (st : SimState) (i : ℕ) : SimState :=
  let es := st.elevators.getD i default
  let es1 :=
    if es.is_empty && Environment.no_buttons_pressed ⟨st.floors⟩ then
      { es with status := ElevatorState.IDLE, direction := ElevatorState.STOPPED }
    else
      { es with status := ElevatorState.DONE_BOARDING }
  { st with elevators := st.elevators.set i es1 }

/-- `Simulator.process_events`: pop and execute while the top event is due
(empty queue: `IndexError`, caught, loop ends).  Executing an
`ElevatorActionEvent` runs `do_action`; a `DoneBoardingEvent` updates the
elevator status.  A `PassengerArrivalEvent`, `PassengerTransferEvent` or
`ElevatorControlEvent` raises `TypeError` inside its `execute` (the
`update_accumulated_cost` / `enter_elevator` arity bugs), killing the
run: `none`. -/
def processSimEventsAux : ℕ → SimState → Option SimState
  | 0, st => some st
  | fuel + 1, st =>
    match st.queue with
    | [] => some st
    | top :: _ =>
      if st.time ≥ top.time - GENERAL_EPS then
        let pr := heappop simEventLT st.queue
        match pr.1 with
        | .action _ i act =>
          processSimEventsAux fuel
            { st with
                queue := pr.2
                elevators := st.elevators.set i
                  (ElevatorState.do_action st.time act (st.elevators.getD i default)) }
        | .doneBoarding _ i =>
          processSimEventsAux fuel (doneBoardingExecute { st with queue := pr.2 } i)
        | _ => none
      else
        some st

/-- `ElevatorState.complete_action(simulator)` for every elevator in list
order (`Environment.complete_actions`), threading floors and queue:
a completed STOP at the stop target enters BOARDING and either boards
passengers or schedules `DoneBoardingEvent`; MOVE/CONTINUE just clear the
current action. -/
def completeActionsAux (now : ℚ) :
    List ElevatorState → ℕ → List Floor → List SimEvent →
    List ElevatorState × List Floor × List SimEvent
  | [], _, floors, q => ([], floors, q)
  | es :: rest, i, floors, q =>
    let step :
        ElevatorState × List Floor × List SimEvent :=
      if es.current_action == ElevatorState.STOP &&
          ((es.floor : ℤ) == es.stop_target) then
        let floor := floors.getD es.floor (Floor.init 0)
        let es1 := { es with status := ElevatorState.BOARDING }
        let after :
            List Floor × List SimEvent :=
          if floor.has_passengers || es1.is_passenger_getting_off then
            let bp := Floor.board_passengers floor now es1
            (floors.set es1.floor bp.2,
             bp.1.foldl (fun q2 e => heappush simEventLT q2 (simEventOfBoard i e)) q)
          else
            (floors, heappush simEventLT q (.doneBoarding now i))
        ({ es1 with current_action := ElevatorState.NO_ACTION,
                    full_speed_decision_made := false,
                    accelerating_decision_made := false },
         after.1, after.2)
      else if es.current_action == ElevatorState.MOVE_UP ||
          es.current_action == ElevatorState.MOVE_DOWN then
        ({ es with current_action := ElevatorState.NO_ACTION }, floors, q)
      else if es.current_action == ElevatorState.CONTINUE then
        ({ es with current_action := ElevatorState.NO_ACTION }, floors, q)
      else (es, floors, q)
    let rec' := completeActionsAux now rest (i + 1) step.2.1 step.2.2
    (step.1 :: rec'.1, rec'.2.1, rec'.2.2)

/-- One iteration of the `Simulator.update` loop.  `none` when an
exception aborts the run mid-tick. -/
def simStep (cosFn : ℚ → ℚ) (st : SimState) : Option SimState :=
  let t1 := st.time + TIME_STEP
  match updateElevatorsList cosFn ⟨st.floors⟩ t1 st.elevators with
  | .error _ => none
  | .ok elevs1 =>
    match processActionsAux st.floors t1 elevs1 0 st.queue with
    | .error _ => none
    | .ok (elevs2, q2) =>
      match processSimEventsAux q2.length
          { time := t1, floors := st.floors, elevators := elevs2, queue := q2
            last_accumulator_event_time := st.last_accumulator_event_time } with
      | none => none
      | some st3 =>
        let r := completeActionsAux st3.time st3.elevators 0 st3.floors st3.queue
        some { st3 with elevators := r.1, floors := r.2.1, queue := r.2.2 }

/-- `ElevatorState.__init__` as constructed by `Environment.__init__`. -/
def initElevator (numFloors : ℕ) : ElevatorState :=
  { floor := 0, direction := ElevatorState.STOPPED
    current_action := ElevatorState.NO_ACTION, capacity := 20
    passengers := List.replicate numFloors []
    status := ElevatorState.IDLE, acc := 0, vel := 0, pos := 0
    reference_time := 0
    accelerating_decision_made := false, full_speed_decision_made := false
    stop_target := -1 }

/-- The state after `Simulator.start_episode`: fresh floors and elevators,
and the initial `PassengerArrivalEvent`s that `Environment.start_episode`
generates (one per non-ground floor, at nondeterministic exponential
times — here arbitrary `(time, floorLevel)` pairs). -/
def initState (numFloors numElevators : ℕ) (arrivals : List (ℚ × ℕ)) :
    SimState :=
  { time := 0
    floors := (List.range numFloors).map Floor.init
    elevators := List.replicate numElevators (initElevator numFloors)
    queue := arrivals.foldl
      (fun q a => heappush simEventLT q (.arrival a.1 a.2)) []
    last_accumulator_event_time := 0 }

/-- States reachable at the end of a completed simulator tick. -/
inductive Reachable (cosFn : ℚ → ℚ) : SimState → Prop
  | init (numFloors numElevators : ℕ) (arrivals : List (ℚ × ℕ)) :
      Reachable cosFn (initState numFloors numElevators arrivals)
  | step (st st' : SimState) (hst : Reachable cosFn st)
      (h : simStep cosFn st = some st') : Reachable cosFn st'

/-! ### Predicate preservation through the heap operations -/

section HeapPred

variable {α : Type} [Inhabited α] {P : α → Prop}

lemma getD_pred {l : List α} {i : ℕ} {d : α} (hl : ∀ x ∈ l, P x) (hd : P d) :
    P (l.getD i d) := by
  rw [List.getD_eq_get?]
  rcases h : l.get? i with _ | x
  · exact hd
  · exact hl x (List.get?_mem h)

lemma set_pred {l : List α} (hl : ∀ x ∈ l, P x) {i : ℕ} {a : α} (ha : P a) :
    ∀ x ∈ l.set i a, P x := by
  intro x hx
  rcases List.mem_or_eq_of_mem_set hx with h | rfl
  · exact hl x h
  · exact ha

lemma getLastD_pred {l : List α} {d : α} (hl : ∀ x ∈ l, P x) (hd : P d) :
    P (l.getLast?.getD d) := by
  rcases h : l.getLast? with _ | a
  · exact hd
  · have hmem : a ∈ l.getLast? := by rw [h]; rfl
    obtain ⟨hne, hx⟩ := List.mem_getLast?_eq_getLast hmem
    rw [Option.getD_some, hx]
    exact hl _ (List.getLast_mem hne)

lemma siftdownAux_pred (lt : α → α → Bool) (hd : P default) :
    ∀ (fuel : ℕ) (heap : List α) (startpos pos : ℕ) (item : α),
      (∀ x ∈ heap, P x) → P item →
      ∀ x ∈ siftdownAux lt fuel heap startpos pos item, P x := by
  intro fuel
  induction fuel with
  | zero => intro heap s p item hh hi; exact set_pred hh hi
  | succ n ih =>
    intro heap s p item hh hi
    simp only [siftdownAux]
    split
    · split
      · exact ih _ _ _ _ (set_pred hh (getD_pred hh hd)) hi
      · exact set_pred hh hi
    · exact set_pred hh hi

lemma heapSiftdown_pred (lt : α → α → Bool) (hd : P default)
    {heap : List α} (hh : ∀ x ∈ heap, P x) (startpos pos : ℕ) :
    ∀ x ∈ heapSiftdown lt heap startpos pos, P x :=
  siftdownAux_pred lt hd _ _ _ _ _ hh (getD_pred hh hd)

lemma siftupAux_pred (lt : α → α → Bool) (hd : P default) :
    ∀ (fuel : ℕ) (heap : List α) (pos : ℕ),
      (∀ x ∈ heap, P x) → ∀ x ∈ (siftupAux lt fuel heap pos).1, P x := by
  intro fuel
  induction fuel with
  | zero => intro heap p hh; exact hh
  | succ n ih =>
    intro heap p hh
    simp only [siftupAux]
    split
    · exact ih _ _ (set_pred hh (getD_pred hh hd))
    · exact hh

lemma heapSiftup_pred (lt : α → α → Bool) (hd : P default)
    {heap : List α} (hh : ∀ x ∈ heap, P x) (pos : ℕ) :
    ∀ x ∈ heapSiftup lt heap pos, P x := by
  unfold heapSiftup
  exact heapSiftdown_pred lt hd
    (set_pred (siftupAux_pred lt hd _ _ _ hh) (getD_pred hh hd)) _ _

lemma heappush_pred (lt : α → α → Bool) (hd : P default)
    {heap : List α} (hh : ∀ x ∈ heap, P x) {item : α} (hi : P item) :
    ∀ x ∈ heappush lt heap item, P x := by
  unfold heappush
  refine heapSiftdown_pred lt hd ?_ _ _
  intro x hx
  rcases List.mem_append.1 hx with h | h
  · exact hh x h
  · simpa using (List.mem_singleton.1 h) ▸ hi

lemma heappop_fst_pred (lt : α → α → Bool) (hd : P default)
    {heap : List α} (hh : ∀ x ∈ heap, P x) :
    P (heappop lt heap).1 := by
  unfold heappop
  rcases h : heap.dropLast with _ | ⟨x, xs⟩
  · simpa [h] using getLastD_pred hh hd
  · have hx : x ∈ heap :=
      (List.dropLast_sublist heap).subset (by rw [h]; exact List.mem_cons_self x xs)
    simpa [h] using hh x hx

end HeapPred

/-! ### The pristine invariant

Until a `PassengerArrivalEvent` fires, nothing in the world has changed:
no hall button is lit, every floor queue and every elevator is empty, and
every elevator sits idle at floor 0.  The first arrival to come due raises
`TypeError` inside its executor (C10), aborting the run, so these are
exactly the states in which the simulator ever completes a tick. -/

def PristineElev (es : ElevatorState) : Prop :=
  es.status = ElevatorState.IDLE ∧
  es.current_action = ElevatorState.NO_ACTION ∧
  es.acc = 0 ∧ es.vel = 0 ∧ es.pos = 0 ∧ es.floor = 0 ∧
  ∀ b ∈ es.passengers, b = []

def Pristine (st : SimState) : Prop :=
  (∀ es ∈ st.elevators, PristineElev es) ∧
  (∀ f ∈ st.floors,
    f.passengers_up = [] ∧ f.passengers_down = [] ∧ f.up = false ∧ f.down = false) ∧
  (∀ e ∈ st.queue, e.isArrival = true) ∧
  (st.floors.getD 0 (Floor.init 0)).pos = 0

lemma sum_lengths_zero {ps : List (List Passenger)} (h : ∀ b ∈ ps, b = []) :
    (ps.map List.length).sum = 0 := by
  induction ps with
  | nil => rfl
  | cons b t ih =>
    simp only [List.map_cons, List.sum_cons]
    rw [h b (List.mem_cons_self b t), ih (fun x hx => h x (List.mem_cons_of_mem b hx))]
    rfl

lemma is_empty_of_empty_buckets {es : ElevatorState}
    (h : ∀ b ∈ es.passengers, b = []) : es.is_empty = true := by
  simp [ElevatorState.is_empty, ElevatorState.num_passengers, sum_lengths_zero h]

lemma boolSum_zero {l : List Bool} (h : ∀ b ∈ l, b = false) :
    Environment.boolSum l = 0 := by
  unfold Environment.boolSum
  induction l with
  | nil => rfl
  | cons b t ih =>
    rw [List.filter_cons]
    rw [h b (List.mem_cons_self b t)]
    exact ih (fun x hx => h x (List.mem_cons_of_mem b hx))

lemma no_buttons_pristine {floors : List Floor}
    (hf : ∀ f ∈ floors,
      f.passengers_up = [] ∧ f.passengers_down = [] ∧ f.up = false ∧ f.down = false) :
    Environment.no_buttons_pressed ⟨floors⟩ = true := by
  have hdown : Environment.boolSum (Environment.buttons_down ⟨floors⟩) = 0 := by
    refine boolSum_zero ?_
    intro b hb
    rcases List.mem_map.1 hb with ⟨f, hfm, rfl⟩
    exact (hf f hfm).2.2.2
  have hup : Environment.boolSum (Environment.buttons_up ⟨floors⟩) = 0 := by
    refine boolSum_zero ?_
    intro b hb
    rcases List.mem_map.1 hb with ⟨f, hfm, rfl⟩
    exact (hf f hfm).2.2.1
  simp [Environment.no_buttons_pressed, hdown, hup]

lemma gpa_pristine {floors : List Floor} {es : ElevatorState}
    (hp : PristineElev es)
    (hnb : Environment.no_buttons_pressed ⟨floors⟩ = true) :
    Environment.get_possible_actions ⟨floors⟩ es = .ok ([], es) := by
  obtain ⟨_, hca, _, _, _, _, hb⟩ := hp
  have h1 : es.is_action_in_progress = false := by
    simp [ElevatorState.is_action_in_progress, hca]
  rw [Environment.get_possible_actions]
  rw [h1, hnb, is_empty_of_empty_buckets hb]
  simp

lemma update_pristine (cosFn : ℚ → ℚ) (env : Environment) (now : ℚ)
    {es : ElevatorState} (hp : PristineElev es)
    (h0 : (env.floors.getD 0 (Floor.init 0)).pos = 0) :
    ElevatorState.update cosFn env now es = .ok es := by
  obtain ⟨hs, hca, hacc, hvel, hpos, hfl, hb⟩ := hp
  obtain ⟨fl, dir, ca, cap, ps, stt, a, v, p, rt, adm, fsm, stg⟩ := es
  dsimp only at hs hca hacc hvel hpos hfl
  subst hs hca hacc hvel hpos hfl
  have hm : ElevatorMotion.update cosFn now
      ⟨0, dir, ElevatorState.NO_ACTION, cap, ps, ElevatorState.IDLE,
       0, 0, 0, rt, adm, fsm, stg⟩ =
      ⟨0, dir, ElevatorState.NO_ACTION, cap, ps, ElevatorState.IDLE,
       0, 0, 0, rt, adm, fsm, stg⟩ := by
    rw [ElevatorMotion.update]
    norm_num [ElevatorState.IDLE, ElevatorState.BOARDING]
  have hcl : ElevatorState.clampStage
      ⟨0, dir, ElevatorState.NO_ACTION, cap, ps, ElevatorState.IDLE,
       0, 0, 0, rt, adm, fsm, stg⟩ =
      ⟨0, dir, ElevatorState.NO_ACTION, cap, ps, ElevatorState.IDLE,
       0, 0, 0, rt, adm, fsm, stg⟩ := by
    rw [ElevatorState.clampStage]
    norm_num [MAX_SPEED, GENERAL_EPS]
  rw [ElevatorState.update, hm, hcl, ElevatorState.crossStage]
  dsimp only
  rw [h0]
  norm_num [FLOOR_HEIGHT, GENERAL_EPS]
  rfl

set_option maxHeartbeats 1000000 in
lemma updateElevatorsList_pristine (cosFn : ℚ → ℚ) (env : Environment)
    (now : ℚ) (h0 : (env.floors.getD 0 (Floor.init 0)).pos = 0) :
    ∀ l : List ElevatorState, (∀ es ∈ l, PristineElev es) →
      updateElevatorsList cosFn env now l = .ok l := by
  intro l
  induction l with
  | nil => intro _; rfl
  | cons es rest ih =>
    intro hl
    have h1 := update_pristine cosFn env now (hl es (List.mem_cons_self es rest)) h0
    have h2 := ih (fun x hx => hl x (List.mem_cons_of_mem es hx))
    rw [updateElevatorsList, h1, h2]

lemma processActionsAux_pristine {floors : List Floor} (now : ℚ)
    (hnb : Environment.no_buttons_pressed ⟨floors⟩ = true) :
    ∀ (l : List ElevatorState) (i : ℕ) (q : List SimEvent),
      (∀ es ∈ l, PristineElev es) →
      processActionsAux floors now l i q = .ok (l, q) := by
  intro l
  induction l with
  | nil => intro _ _ _; rfl
  | cons es rest ih =>
    intro i q hl
    simp only [processActionsAux,
      gpa_pristine (hl es (List.mem_cons_self es rest)) hnb,
      List.length_nil]
    norm_num
    simp only [ih (i + 1) q (fun x hx => hl x (List.mem_cons_of_mem es hx))]

lemma processSimEventsAux_pristine :
    ∀ (fuel : ℕ) (st st' : SimState),
      (∀ e ∈ st.queue, e.isArrival = true) →
      processSimEventsAux fuel st = some st' → st' = st := by
  intro fuel
  cases fuel with
  | zero =>
    intro st st' _ h
    simpa [processSimEventsAux] using h.symm
  | succ n =>
    intro st st' hq h
    rw [processSimEventsAux] at h
    rcases hqe : st.queue with _ | ⟨top, rest⟩
    · rw [hqe] at h
      dsimp only at h
      exact (Option.some.inj h).symm
    · rw [hqe] at h
      dsimp only at h
      by_cases hdue : st.time ≥ top.time - GENERAL_EPS
      · rw [if_pos hdue] at h
        have harr : (heappop simEventLT (top :: rest)).1.isArrival = true := by
          refine heappop_fst_pred (P := fun e => e.isArrival = true) simEventLT rfl ?_
          intro x hx
          exact hq x (by rw [hqe]; exact hx)
        rcases hpr : (heappop simEventLT (top :: rest)).1 with
            ⟨t, fl⟩ | ⟨t, i, p, b⟩ | ⟨t, i⟩ | ⟨t, i, a⟩ | ⟨t, i⟩ <;>
          rw [hpr] at h harr <;> simp_all [SimEvent.isArrival]
      · rw [if_neg hdue] at h
        exact (Option.some.inj h).symm

lemma completeActionsAux_pristine (now : ℚ) :
    ∀ (l : List ElevatorState) (i : ℕ) (floors : List Floor)
      (q : List SimEvent),
      (∀ es ∈ l, es.current_action = ElevatorState.NO_ACTION) →
      completeActionsAux now l i floors q = (l, floors, q) := by
  intro l
  induction l with
  | nil => intro _ _ _ _; rfl
  | cons es rest ih =>
    intro i floors q hl
    simp only [completeActionsAux, hl es (List.mem_cons_self es rest)]
    norm_num [ElevatorState.NO_ACTION, ElevatorState.STOP,
      ElevatorState.MOVE_UP, ElevatorState.MOVE_DOWN, ElevatorState.CONTINUE]
    simp only [ih (i + 1) floors q (fun x hx => hl x (List.mem_cons_of_mem es hx))]
    exact ⟨trivial, trivial⟩

lemma foldl_heappush_arrivals :
    ∀ (as : List (ℚ × ℕ)) (q : List SimEvent),
      (∀ e ∈ q, e.isArrival = true) →
      ∀ e ∈ as.foldl (fun q2 a => heappush simEventLT q2 (.arrival a.1 a.2)) q,
        e.isArrival = true := by
  intro as
  induction as with
  | nil => intro q hq; exact hq
  | cons a t ih =>
    intro q hq
    exact ih _ (heappush_pred (P := fun e => e.isArrival = true) simEventLT rfl hq rfl)

lemma pristine_init (numFloors numElevators : ℕ) (arrivals : List (ℚ × ℕ)) :
    Pristine (initState numFloors numElevators arrivals) := by
  refine ⟨?_, ?_, ?_, ?_⟩
  · intro es hes
    rw [initState] at hes
    dsimp only at hes
    rw [List.eq_of_mem_replicate hes]
    refine ⟨rfl, rfl, rfl, rfl, rfl, rfl, ?_⟩
    intro b hb
    exact List.eq_of_mem_replicate hb
  · intro f hf
    rw [initState] at hf
    dsimp only at hf
    rcases List.mem_map.1 hf with ⟨k, _, rfl⟩
    exact ⟨rfl, rfl, rfl, rfl⟩
  · intro e he
    rw [initState] at he
    dsimp only at he
    exact foldl_heappush_arrivals arrivals [] (by intro x hx; cases hx) e he
  · cases numFloors with
    | zero => norm_num [initState, Floor.init]
    | succ n =>
      norm_num [initState, List.range_succ_eq_map, Floor.init]

lemma pristine_step (cosFn : ℚ → ℚ) {st st' : SimState} (hp : Pristine st)
    (h : simStep cosFn st = some st') : Pristine st' := by
  obtain ⟨he, hf, hq, h0⟩ := hp
  have hnb : Environment.no_buttons_pressed ⟨st.floors⟩ = true :=
    no_buttons_pristine hf
  rw [simStep] at h
  dsimp only at h
  rw [updateElevatorsList_pristine cosFn ⟨st.floors⟩ (st.time + TIME_STEP) h0
    st.elevators he] at h
  dsimp only at h
  rw [processActionsAux_pristine (st.time + TIME_STEP) hnb st.elevators 0
    st.queue he] at h
  dsimp only at h
  rcases hps : processSimEventsAux st.queue.length
      { time := st.time + TIME_STEP, floors := st.floors
        elevators := st.elevators, queue := st.queue
        last_accumulator_event_time := st.last_accumulator_event_time }
      with _ | st3
  · rw [hps] at h
    cases h
  · rw [hps] at h
    have h3 := processSimEventsAux_pristine st.queue.length
      { time := st.time + TIME_STEP, floors := st.floors
        elevators := st.elevators, queue := st.queue
        last_accumulator_event_time := st.last_accumulator_event_time }
      st3 (by exact hq) hps
    subst h3
    dsimp only at h
    rw [completeActionsAux_pristine (st.time + TIME_STEP) st.elevators 0
      st.floors st.queue (fun es hes => (he es hes).2.1)] at h
    have h4 := (Option.some.inj h).symm
    subst h4
    exact ⟨he, hf, hq, h0⟩

lemma reachable_pristine {cosFn : ℚ → ℚ} {st : SimState}
    (h : Reachable cosFn st) : Pristine st := by
  induction h with
  | init nf ne as => exact pristine_init nf ne as
  | step s s' hs hstep ih => exact pristine_step cosFn ih hstep

lemma clampStage_promotes {es : ElevatorState}
    (hs : es.status = ElevatorState.ACCELERATING)
    (hv : |es.vel| ≥ MAX_SPEED - GENERAL_EPS) :
    es.clampStage.status = ElevatorState.FULL_SPEED ∧
    es.clampStage.vel = (es.direction : ℚ) * MAX_SPEED := by
  rw [ElevatorState.clampStage, hs]
  norm_num [ElevatorState.ACCELERATING, ElevatorState.FULL_SPEED,
    ElevatorState.FULL_SPEED_DECELERATING, hv]

lemma crossStage_preserves {env : Environment} {es es' : ElevatorState}
    (h : ElevatorState.crossStage env es = .ok es') :
    es'.status = es.status ∧ es'.vel = es.vel := by
  rw [ElevatorState.crossStage] at h
  split at h
  · rcases hnf : es.next_floor env.floors 1 with e | nf
    · rw [hnf] at h
      simp only [Bind.bind, Except.bind] at h
      cases h
    · rw [hnf] at h
      simp only [Bind.bind, Except.bind] at h
      split at h
      · have := (Except.ok.inj h).symm
        subst this
        exact ⟨rfl, rfl⟩
      · have := (Except.ok.inj h).symm
        subst this
        exact ⟨rfl, rfl⟩
  · have := (Except.ok.inj h).symm
    subst this
    exact ⟨rfl, rfl⟩

/-- C8.  (1) In every state reachable at the end of a completed simulator
tick — for any `cosFn` standing in for `math.cos` — every elevator
satisfies `|vel| ≤ MAX_SPEED + GENERAL_EPS` and
`0 ≤ pos ≤ (N−1)·FLOOR_HEIGHT + GENERAL_EPS`.  (Hall buttons only ever
light after a `PassengerArrivalEvent` executes, and that execution dies
with `TypeError` (C10), so reachable states keep every elevator idle at
floor 0 with `vel = pos = 0`, which satisfies the bounds.)
(2) `ElevatorState.update` is the motion step followed by the clamp stage
and the crossing stage; (3) whenever `|vel| ≥ MAX_SPEED − GENERAL_EPS` in
the ACCELERATING status, the clamp stage sets status `FULL_SPEED` and
`vel := direction·MAX_SPEED`; (4) the crossing stage preserves the
promoted status and clamped velocity to the end of the update. -/
theorem reachable_bounds_and_full_speed_clamp :
    (∀ (cosFn : ℚ → ℚ) (st : SimState), Reachable cosFn st →
      ∀ es ∈ st.elevators,
        |es.vel| ≤ MAX_SPEED + GENERAL_EPS ∧
        0 ≤ es.pos ∧
        es.pos ≤ ((st.floors.length - 1 : ℕ) : ℚ) * FLOOR_HEIGHT + GENERAL_EPS) ∧
    (∀ (cosFn : ℚ → ℚ) (env : Environment) (now : ℚ) (es : ElevatorState),
      ElevatorState.update cosFn env now es =
        ElevatorState.crossStage env
          (ElevatorState.clampStage (ElevatorMotion.update cosFn now es))) ∧
    (∀ es : ElevatorState, es.status = ElevatorState.ACCELERATING →
      |es.vel| ≥ MAX_SPEED - GENERAL_EPS →
      es.clampStage.status = ElevatorState.FULL_SPEED ∧
      es.clampStage.vel = (es.direction : ℚ) * MAX_SPEED) ∧
    (∀ (env : Environment) (es es' : ElevatorState),
      ElevatorState.crossStage env es = .ok es' →
      es'.status = es.status ∧ es'.vel = es.vel) := by
  refine ⟨?_, fun _ _ _ _ => rfl, fun es hs hv => clampStage_promotes hs hv,
    fun _ _ _ h => crossStage_preserves h⟩
  intro cosFn st hr es hes
  obtain ⟨he, _, _, _⟩ := reachable_pristine hr
  obtain ⟨_, _, _, hvel, hpos, _, _⟩ := he es hes
  rw [hvel, hpos]
  refine ⟨by norm_num [MAX_SPEED, GENERAL_EPS], le_refl 0, ?_⟩
  have h1 : (0 : ℚ) ≤ ((st.floors.length - 1 : ℕ) : ℚ) * FLOOR_HEIGHT := by
    have : (0 : ℚ) ≤ FLOOR_HEIGHT := by norm_num [FLOOR_HEIGHT]
    positivity
  have h2 : (0 : ℚ) < GENERAL_EPS := by norm_num [GENERAL_EPS]
  linarith

/-- The elevator used to witness the clamp: ACCELERATING upward with
velocity exactly `MAX_SPEED`. -/
def esClampW : ElevatorState :=
  { floor := 0, direction := ElevatorState.UP
    current_action := ElevatorState.NO_ACTION, capacity := 20
    passengers := [[]], status := ElevatorState.ACCELERATING
    acc := 0, vel := 254 / 100, pos := 1, reference_time := 0
    accelerating_decision_made := true, full_speed_decision_made := false
    stop_target := -1 }

/-- Witness for C8: the bounds at the initial state of a 5-floor, 1-elevator
building (reachable by construction), the clamp at `esClampW`, and the
crossing stage leaving a mid-floor elevator untouched. -/
theorem reachable_bounds_and_full_speed_clamp_witness :
    (|(initElevator 5).vel| ≤ MAX_SPEED + GENERAL_EPS ∧
      0 ≤ (initElevator 5).pos ∧
      (initElevator 5).pos ≤
        (((initState 5 1 [(10, 3)]).floors.length - 1 : ℕ) : ℚ) * FLOOR_HEIGHT +
          GENERAL_EPS) ∧
    (esClampW.clampStage.status = ElevatorState.FULL_SPEED ∧
      esClampW.clampStage.vel = (esClampW.direction : ℚ) * MAX_SPEED) ∧
    (esClampW.status = esClampW.status ∧ esClampW.vel = esClampW.vel) := by
  refine ⟨?_, ?_, ?_⟩
  · exact reachable_bounds_and_full_speed_clamp.1 (fun _ => 1) _
      (Reachable.init 5 1 [(10, 3)]) (initElevator 5)
      (by simp [initState])
  · refine reachable_bounds_and_full_speed_clamp.2.2.1 esClampW rfl ?_
    show |(254 : ℚ) / 100| ≥ MAX_SPEED - GENERAL_EPS
    rw [abs_of_nonneg (by norm_num : (0 : ℚ) ≤ 254 / 100)]
    norm_num [MAX_SPEED, GENERAL_EPS]
  · refine reachable_bounds_and_full_speed_clamp.2.2.2 ⟨[Floor.init 0]⟩
      esClampW esClampW ?_
    rw [ElevatorState.crossStage]
    norm_num [esClampW, Floor.init, FLOOR_HEIGHT, GENERAL_EPS]
    rfl

end ElevatorSim
